import Mathlib

/-!
Verification of the dataset partitioner and loader factory
(`src/datamodules/slides_datamodule.py`, class `SlidesDataModule`).

The module is embedded as a pure state machine: `DMState` holds the stored
configuration (`hparams`) and the three optional partitions; `setup` is the
guarded initialize-once split; `expand` is the index-expansion comprehension;
the dataloader constructors and checkpoint hooks are pure functions of the
state.  The external collaborators (`SlidesDataset`, torch's generator and
`random_split`) are modelled from the spec where noted.
-/

namespace SlidesDM

/-- Constructor arguments of `SlidesDataModule.__init__` (lines 40-51), stored
via `save_hyperparameters`.  The three fractions of `train_val_test_split` are
modelled as exact rationals. -/
structure Hparams where
  slides_file : String
  patch_per_slide : Nat
  crop_size : Nat
  patch_size : Nat
  f_train : ℚ
  f_val : ℚ
  f_test : ℚ
  batch_size : Nat
  num_workers : Nat
  pin_memory : Bool
  dino : Bool
deriving DecidableEq

/-- The mutable state of a `SlidesDataModule` instance: the stored hparams,
the three optional partitions (`data_train`, `data_val`, `data_test`, each a
`Subset` represented by its index list), and the `patch_per_slide` attribute
written onto the shared dataset collaborator (lines 99-101). -/
structure DMState where
  hp : Hparams
  data_train : Option (List Nat)
  data_val : Option (List Nat)
  data_test : Option (List Nat)
  dataset_pps : Option Nat
deriving DecidableEq

/-- State right after `__init__` (lines 63-65): all three partitions are
`None`. -/
def mkState (hp : Hparams) : DMState :=
  ⟨hp, none, none, none, none⟩

/-- A state is fresh when all three partition fields are still `None`. -/
def fresh (s : DMState) : Prop :=
  s.data_train = none ∧ s.data_val = none ∧ s.data_test = none

/-- Python truthiness of an optional partition: `None` and an empty `Subset`
(`__len__ == 0`) are falsy, a non-empty `Subset` is truthy. -/
def populated : Option (List Nat) → Bool
  | none => false
  | some l => !l.isEmpty

/-- Python `int(q)`: truncation toward zero. -/
def pyInt (q : ℚ) : Int :=
  if 0 ≤ q then ⌊q⌋ else -⌊-q⌋

/-- Lines 89-91: `train_samples = int(split[0]*total)`,
`val_samples = int(split[1]*total)`,
`test_samples = total - train_samples - val_samples`. -/
def splitCounts (hp : Hparams) (total : Nat) : Int × Int × Int :=
  let tr := pyInt (hp.f_train * total)
  let va := pyInt (hp.f_val * total)
  (tr, va, (total : Int) - tr - va)

/-- Modelled from the spec: one step of the 64-bit pseudorandom stream that
drives the fixed-seed permutation.  The concrete generator used by torch is
external to this repository; the spec requires only a deterministic
pseudorandom permutation reproducible from the seed. -/
def lcg (s : Nat) : Nat :=
  (6364136223846793005 * s + 1442695040888963407) % 2 ^ 64

/-- Modelled from the spec: seeded shuffle of a list — repeatedly draw the
element at a pseudorandom position among those remaining.  A deterministic
function of the stream state and the list; the first argument is structural
fuel, one unit per drawn element. -/
def shuffleAux : Nat → Nat → List Nat → List Nat
  | 0, _, _ => []
  | fuel + 1, s, l =>
    if h : l.length = 0 then []
    else
      l.get ⟨s % l.length, Nat.mod_lt _ (Nat.pos_of_ne_zero h)⟩ ::
        shuffleAux fuel (lcg s)
          (l.erase (l.get ⟨s % l.length, Nat.mod_lt _ (Nat.pos_of_ne_zero h)⟩))

/-- Modelled from the spec: `torch.randperm(n, generator)` for a generator
seeded with `seed` — the fixed-seed pseudorandom permutation of `[0, n)`
(spec §4.1 step 4). -/
def randperm (seed n : Nat) : List Nat :=
  shuffleAux n (lcg seed) (List.range n)

/-- Modelled from the spec: `torch.utils.data.random_split(dataset, lengths,
generator)` (lines 93-97) — raises unless the requested lengths are
non-negative and sum to the dataset length; otherwise partitions the index
range `[0, n)` into consecutive chunks of the fixed-seed permutation, of the
requested sizes. -/
def random_split (n : Nat) (tr va te : Int) (seed : Nat) :
    Option (List Nat × List Nat × List Nat) :=
  if 0 ≤ tr ∧ 0 ≤ va ∧ 0 ≤ te ∧ tr + va + te = (n : Int) then
    let p := randperm seed n
    some (p.take tr.toNat, (p.drop tr.toNat).take va.toNat,
      ((p.drop tr.toNat).drop va.toNat).take te.toNat)
  else none

/-- Lines 102-104: the index-expansion comprehension
`[i*P+j for j in range(P) for i in indices]` (outer loop over `j`, inner loop
over the partition's index list). -/
def expand (P : Nat) (I : List Nat) : List Nat :=
  (List.range P).flatMap fun j => I.map fun i => i * P + j

/-- The method `SlidesDataModule.setup` (lines 79-104).  `total` stands for
`len(SlidesDataset(...))`, the dataset collaborator being external to this
module; `stage` is the (unused) lightning stage argument.  Returns `none`
when `random_split` raises, otherwise the updated state. -/
def setup (s : DMState) (stage : Option String) (total : Nat) :
    Option DMState :=
  if populated s.data_train || populated s.data_val || populated s.data_test
  then some s
  else
    match random_split total (splitCounts s.hp total).1
        (splitCounts s.hp total).2.1 (splitCounts s.hp total).2.2 42 with
    | none => none
    | some (t, v, w) =>
      let P := s.hp.patch_per_slide
      some { s with
        dataset_pps := some P
        data_train := some (expand P t)
        data_val := some (expand P v)
        data_test := some (expand P w) }

/-- The arguments each dataloader constructor passes to `DataLoader`
(lines 106-131): the partition used as `dataset`, plus `batch_size`,
`num_workers`, `pin_memory` and `shuffle`. -/
structure DataLoaderArgs where
  indices : Option (List Nat)
  batch_size : Nat
  num_workers : Nat
  pin_memory : Bool
  shuffle : Bool
deriving DecidableEq

/-- Lines 106-113: `train_dataloader` — shuffle enabled. -/
def train_dataloader (s : DMState) : DataLoaderArgs :=
  ⟨s.data_train, s.hp.batch_size, s.hp.num_workers, s.hp.pin_memory, true⟩

/-- Lines 115-122: `val_dataloader` — shuffle disabled. -/
def val_dataloader (s : DMState) : DataLoaderArgs :=
  ⟨s.data_val, s.hp.batch_size, s.hp.num_workers, s.hp.pin_memory, false⟩

/-- Lines 124-131: `test_dataloader` — shuffle disabled. -/
def test_dataloader (s : DMState) : DataLoaderArgs :=
  ⟨s.data_test, s.hp.batch_size, s.hp.num_workers, s.hp.pin_memory, false⟩

/-- Line 68-70: the `num_classes` property, fixed at 2. -/
def num_classes : Nat := 2

/-- Lines 72-77: `prepare_data` — a no-op. -/
def prepare_data (s : DMState) : DMState := s

/-- Lines 133-135: `teardown` — a no-op. -/
def teardown (s : DMState) (stage : Option String) : DMState := s

/-- Lines 137-139: `state_dict` returns the empty mapping `{}`. -/
def state_dict (s : DMState) : List (String × Int) := []

/-- Lines 141-143: `load_state_dict` — accepts any mapping, does nothing. -/
def load_state_dict (s : DMState) (sd : List (String × Int)) : DMState := s

/-- A concrete configuration matching the constructor defaults (lines 40-51)
with `patch_per_slide = 2`, used for concrete evaluations. -/
def hpEx : Hparams :=
  ⟨"data/slides.json", 2, 300, 224, 1/2, 3/10, 1/5, 64, 0, false, false⟩

/-- The state `setup` produces from a fresh state with `hpEx` on a dataset of
10 slides (the permutation of `[0, 10)` at seed 42 is
`[3, 9, 4, 6, 8, 5, 7, 0, 2, 1]`, split into chunks of sizes 5, 3, 2 and
expanded with `patch_per_slide = 2`). -/
def sEx : DMState :=
  ⟨hpEx, some [6, 18, 8, 12, 16, 7, 19, 9, 13, 17],
    some [10, 14, 0, 11, 15, 1], some [4, 2, 5, 3], some 2⟩

/-- A state whose train partition alone is populated, used to exercise the
guard of `setup`. -/
def sPop : DMState :=
  ⟨hpEx, some [0], none, none, none⟩

/-! ### General lemmas about the shuffle, the split and the expansion -/

theorem shuffleAux_perm :
    ∀ (fuel s : Nat) (l : List Nat), l.length ≤ fuel →
      (shuffleAux fuel s l).Perm l := by
  intro fuel
  induction fuel with
  | zero =>
    intro s l hl
    have : l = [] := List.length_eq_zero.mp (Nat.le_zero.mp hl)
    simp [this, shuffleAux]
  | succ k ih =>
    intro s l hl
    rw [shuffleAux]
    split
    next h => simp [List.length_eq_zero.mp h]
    next h =>
      have hx : l.get ⟨s % l.length, Nat.mod_lt _ (Nat.pos_of_ne_zero h)⟩ ∈ l :=
        l.get_mem _ _
      have hlen := List.length_erase_of_mem hx
      have hrec := ih (lcg s)
        (l.erase (l.get ⟨s % l.length, Nat.mod_lt _ (Nat.pos_of_ne_zero h)⟩))
        (by omega)
      exact (hrec.cons _).trans (List.perm_cons_erase hx).symm

theorem randperm_perm (seed n : Nat) : (randperm seed n).Perm (List.range n) :=
  shuffleAux_perm n (lcg seed) (List.range n) (by simp)

theorem randperm_length (seed n : Nat) : (randperm seed n).length = n := by
  have := (randperm_perm seed n).length_eq
  simpa using this

theorem randperm_nodup (seed n : Nat) : (randperm seed n).Nodup :=
  ((randperm_perm seed n).nodup_iff).mpr (List.nodup_range n)

theorem chunks_append (p : List Nat) (a b c : Nat) (h : p.length = a + b + c) :
    p.take a ++ ((p.drop a).take b ++ ((p.drop a).drop b).take c) = p := by
  have h1 : ((p.drop a).drop b).take c = (p.drop a).drop b := by
    apply List.take_of_length_le
    simp
    omega
  rw [h1, List.take_append_drop, List.take_append_drop]

theorem rsplit_eq (n : Nat) (tr va te : Int) (sd : Nat) (t v w : List Nat)
    (h : random_split n tr va te sd = some (t, v, w)) :
    t ++ (v ++ w) = randperm sd n ∧
      t.length = tr.toNat ∧ v.length = va.toNat ∧ w.length = te.toNat ∧
      tr.toNat + va.toNat + te.toNat = n := by
  unfold random_split at h
  split at h
  case isFalse => exact absurd h (by simp)
  case isTrue hc =>
    obtain ⟨h1, h2, h3, h4⟩ := hc
    simp only [Option.some.injEq, Prod.mk.injEq] at h
    obtain ⟨ht, hv, hw⟩ := h
    have hsum : tr.toNat + va.toNat + te.toNat = n := by omega
    have hp : (randperm sd n).length = n := randperm_length sd n
    refine ⟨?_, ?_, ?_, ?_, hsum⟩
    · rw [← ht, ← hv, ← hw]
      exact chunks_append _ _ _ _ (by omega)
    · rw [← ht, List.length_take, hp]; omega
    · rw [← hv, List.length_take, List.length_drop, hp]; omega
    · rw [← hw, List.length_take, List.length_drop, List.length_drop, hp]; omega

theorem rsplit_parts (n : Nat) (tr va te : Int) (sd : Nat) (t v w : List Nat)
    (h : random_split n tr va te sd = some (t, v, w)) :
    t.Disjoint v ∧ t.Disjoint w ∧ v.Disjoint w ∧
      (∀ i, (i ∈ t ∨ i ∈ v ∨ i ∈ w) ↔ i < n) ∧ (t ++ v ++ w).Nodup := by
  obtain ⟨he, -, -, -, -⟩ := rsplit_eq n tr va te sd t v w h
  have hperm : (t ++ (v ++ w)).Perm (List.range n) := by
    rw [he]; exact randperm_perm sd n
  have hnd : (t ++ (v ++ w)).Nodup := hperm.nodup_iff.mpr (List.nodup_range n)
  have hnd' := hnd
  rw [List.nodup_append] at hnd'
  obtain ⟨-, hvw, hdis⟩ := hnd'
  rw [List.nodup_append] at hvw
  rw [List.disjoint_append_right] at hdis
  refine ⟨hdis.1, hdis.2, hvw.2.2, ?_, ?_⟩
  · intro i
    have := hperm.mem_iff (a := i)
    simp only [List.mem_append, List.mem_range] at this
    exact this
  · rw [List.append_assoc]
    exact hnd

theorem mem_expand (P : Nat) (I : List Nat) (x : Nat) :
    x ∈ expand P I ↔ ∃ i ∈ I, ∃ j, j < P ∧ x = i * P + j := by
  unfold expand
  simp only [List.mem_flatMap, List.mem_range, List.mem_map]
  constructor
  · rintro ⟨j, hj, i, hi, rfl⟩
    exact ⟨i, hi, j, hj, rfl⟩
  · rintro ⟨i, hi, j, hj, rfl⟩
    exact ⟨j, hj, i, hi, rfl⟩

theorem length_expand (P : Nat) (I : List Nat) :
    (expand P I).length = I.length * P := by
  unfold expand
  rw [List.length_flatMap]
  have hmap : List.map (List.length ∘ fun j => List.map (fun i => i * P + j) I)
      (List.range P) = List.replicate P I.length := by
    apply (List.eq_replicate_iff).mpr
    constructor
    · simp
    · intro b hb
      simp only [List.mem_map, Function.comp, List.length_map] at hb
      obtain ⟨j, -, rfl⟩ := hb
      rfl
  rw [hmap, List.sum_replicate, smul_eq_mul, Nat.mul_comm]

theorem expand_disjoint (P : Nat) (I J : List Nat) (h : I.Disjoint J) :
    (expand P I).Disjoint (expand P J) := by
  intro x hxI hxJ
  rw [mem_expand] at hxI hxJ
  obtain ⟨i1, hi1, j1, hj1, rfl⟩ := hxI
  obtain ⟨i2, hi2, j2, hj2, heq⟩ := hxJ
  have hP : 0 < P := by omega
  have e1 : (i1 * P + j1) / P = i1 := by
    rw [Nat.mul_comm, Nat.mul_add_div hP, Nat.div_eq_of_lt hj1]
    omega
  have e2 : (i2 * P + j2) / P = i2 := by
    rw [Nat.mul_comm, Nat.mul_add_div hP, Nat.div_eq_of_lt hj2]
    omega
  have : i1 = i2 := by rw [← e1, ← e2, heq]
  exact h hi1 (this ▸ hi2)

theorem setup_fresh_eq (s : DMState) (stage : Option String) (total : Nat)
    (hf : fresh s) :
    setup s stage total =
      match random_split total (splitCounts s.hp total).1
          (splitCounts s.hp total).2.1 (splitCounts s.hp total).2.2 42 with
      | none => none
      | some (t, v, w) =>
        some { s with
          dataset_pps := some s.hp.patch_per_slide
          data_train := some (expand s.hp.patch_per_slide t)
          data_val := some (expand s.hp.patch_per_slide v)
          data_test := some (expand s.hp.patch_per_slide w) } := by
  obtain ⟨e1, e2, e3⟩ := hf
  unfold setup
  rw [e1, e2, e3]
  rfl

theorem setup_fresh_some (s s2 : DMState) (stage : Option String) (total : Nat)
    (hf : fresh s) (h : setup s stage total = some s2) :
    ∃ t v w, random_split total (splitCounts s.hp total).1
        (splitCounts s.hp total).2.1 (splitCounts s.hp total).2.2 42 =
          some (t, v, w) ∧
      s2.data_train = some (expand s.hp.patch_per_slide t) ∧
      s2.data_val = some (expand s.hp.patch_per_slide v) ∧
      s2.data_test = some (expand s.hp.patch_per_slide w) := by
  rw [setup_fresh_eq s stage total hf] at h
  cases hrs : random_split total (splitCounts s.hp total).1
      (splitCounts s.hp total).2.1 (splitCounts s.hp total).2.2 42 with
  | none => rw [hrs] at h; exact absurd h (by simp)
  | some tvw =>
    obtain ⟨t, v, w⟩ := tvw
    rw [hrs] at h
    simp only [Option.some.injEq] at h
    refine ⟨t, v, w, rfl, ?_, ?_, ?_⟩ <;> rw [← h]

theorem populated_expand (P : Nat) (X : List Nat) (hP : 1 ≤ P)
    (hX : 1 ≤ X.length) : populated (some (expand P X)) = true := by
  have hlen := length_expand P X
  cases hE : (expand P X).isEmpty with
  | false => simp [populated, hE]
  | true =>
    exfalso
    rw [List.isEmpty_iff] at hE
    rw [hE] at hlen
    simp only [List.length_nil] at hlen
    rcases Nat.mul_eq_zero.mp hlen.symm with h0 | h0 <;> omega

/-! ### Concrete evaluations used by the witnesses -/

theorem splitCounts_hpEx : splitCounts hpEx 10 = (5, 3, 2) := by
  unfold splitCounts pyInt hpEx
  norm_num

theorem random_split_42 :
    random_split 10 5 3 2 42 = some ([3, 9, 4, 6, 8], [5, 7, 0], [2, 1]) := by
  decide

theorem setup_hpEx : setup (mkState hpEx) none 10 = some sEx := by
  rw [setup_fresh_eq (mkState hpEx) none 10 ⟨rfl, rfl, rfl⟩]
  simp only [mkState, splitCounts_hpEx]
  rw [random_split_42]
  rfl

/-! ### The claims -/

/-- C1: in the initialize-once split, for every dataset with
`total_samples ≥ 1` and every (non-negative) split fractions, the computed
partition sizes satisfy `train_count = ⌊f_train * total⌋`,
`val_count = ⌊f_val * total⌋`, `test_count = total - train_count - val_count`,
and hence the three counts sum to `total` exactly. -/
theorem C1_partition_counts (hp : Hparams) (total : Nat) (h1 : 1 ≤ total)
    (h2 : 0 ≤ hp.f_train) (h3 : 0 ≤ hp.f_val) :
    (splitCounts hp total).1 = ⌊hp.f_train * total⌋ ∧
    (splitCounts hp total).2.1 = ⌊hp.f_val * total⌋ ∧
    (splitCounts hp total).2.2 =
      (total : Int) - (splitCounts hp total).1 - (splitCounts hp total).2.1 ∧
    (splitCounts hp total).1 + (splitCounts hp total).2.1 +
      (splitCounts hp total).2.2 = (total : Int) := by
  have ht : (0 : ℚ) ≤ (total : ℚ) := Nat.cast_nonneg total
  have e1 : pyInt (hp.f_train * total) = ⌊hp.f_train * (total : ℚ)⌋ := by
    unfold pyInt
    rw [if_pos (mul_nonneg h2 ht)]
  have e2 : pyInt (hp.f_val * total) = ⌊hp.f_val * (total : ℚ)⌋ := by
    unfold pyInt
    rw [if_pos (mul_nonneg h3 ht)]
  unfold splitCounts
  simp only [e1, e2]
  refine ⟨trivial, trivial, trivial, by ring⟩

theorem C1_partition_counts_witness :
    (splitCounts hpEx 10).1 = ⌊hpEx.f_train * ((10 : Nat) : ℚ)⌋ ∧
    (splitCounts hpEx 10).2.1 = ⌊hpEx.f_val * ((10 : Nat) : ℚ)⌋ ∧
    (splitCounts hpEx 10).2.2 =
      ((10 : Nat) : Int) - (splitCounts hpEx 10).1 - (splitCounts hpEx 10).2.1 ∧
    (splitCounts hpEx 10).1 + (splitCounts hpEx 10).2.1 +
      (splitCounts hpEx 10).2.2 = ((10 : Nat) : Int) :=
  C1_partition_counts hpEx 10 (by decide) (by norm_num [hpEx]) (by norm_num [hpEx])

/-- C2: two runs of `setup` from freshly initialized states with identical
configuration and identical `total_samples` — as performed independently by a
second process — produce identical results, whatever the stage arguments,
because the permutation is seeded with the fixed value 42. -/
theorem C2_reproducible_split (s1 s2 : DMState) (stage1 stage2 : Option String)
    (total : Nat) (h1 : fresh s1) (h2 : fresh s2) (hcfg : s1.hp = s2.hp) :
    setup s1 stage1 total = setup s2 stage2 total := by
  obtain ⟨hp1, t1, v1, w1, p1⟩ := s1
  obtain ⟨hp2, t2, v2, w2, p2⟩ := s2
  simp only [fresh] at h1 h2
  obtain ⟨rfl, rfl, rfl⟩ := h1
  obtain ⟨rfl, rfl, rfl⟩ := h2
  simp only at hcfg
  subst hcfg
  rfl

theorem C2_reproducible_split_witness :
    fresh (mkState hpEx) ∧
      setup (mkState hpEx) none 10 =
        setup ⟨hpEx, none, none, none, some 7⟩ (some "fit") 10 :=
  ⟨⟨rfl, rfl, rfl⟩,
    C2_reproducible_split (mkState hpEx) ⟨hpEx, none, none, none, some 7⟩
      none (some "fit") 10 ⟨rfl, rfl, rfl⟩ ⟨rfl, rfl, rfl⟩ rfl⟩

/-- C3: the three pre-expansion partitions produced by the `random_split`
call of `setup` (seed 42, sizes from `splitCounts`) are pairwise disjoint and
their union is exactly `{0, …, total-1}`, every original index appearing
exactly once across the three partitions. -/
theorem C3_pre_expansion_partition (hp : Hparams) (total : Nat)
    (t v w : List Nat)
    (h : random_split total (splitCounts hp total).1 (splitCounts hp total).2.1
      (splitCounts hp total).2.2 42 = some (t, v, w)) :
    t.Disjoint v ∧ t.Disjoint w ∧ v.Disjoint w ∧
      (∀ i, (i ∈ t ∨ i ∈ v ∨ i ∈ w) ↔ i < total) ∧ (t ++ v ++ w).Nodup :=
  rsplit_parts total _ _ _ 42 t v w h

theorem C3_pre_expansion_partition_witness :
    ([3, 9, 4, 6, 8] : List Nat).Disjoint [5, 7, 0] ∧
      ([3, 9, 4, 6, 8] : List Nat).Disjoint [2, 1] ∧
      ([5, 7, 0] : List Nat).Disjoint [2, 1] ∧
      (∀ i, (i ∈ ([3, 9, 4, 6, 8] : List Nat) ∨ i ∈ ([5, 7, 0] : List Nat) ∨
        i ∈ ([2, 1] : List Nat)) ↔ i < 10) ∧
      (([3, 9, 4, 6, 8] : List Nat) ++ [5, 7, 0] ++ [2, 1]).Nodup :=
  C3_pre_expansion_partition hpEx 10 [3, 9, 4, 6, 8] [5, 7, 0] [2, 1]
    (by simp only [splitCounts_hpEx]; exact random_split_42)

/-- C4: for every pre-expansion index list `I` and replication factor `P`,
the expanded list of lines 102-104 contains exactly the values
`i * P + j` for `i ∈ I` and `j ∈ [0, P)`, and its length is
`I.length * P`. -/
theorem C4_expansion (P : Nat) (I : List Nat) :
    (∀ x, x ∈ expand P I ↔ ∃ i ∈ I, ∃ j, j < P ∧ x = i * P + j) ∧
      (expand P I).length = I.length * P :=
  ⟨fun x => mem_expand P I x, length_expand P I⟩

/-- C5: after a successful `setup` from a fresh state with replication factor
`patch_per_slide ≥ 1`, the three expanded index lists stored in the state are
pairwise disjoint. -/
theorem C5_expanded_disjoint (s s2 : DMState) (stage : Option String)
    (total : Nat) (t v w : List Nat)
    (hf : fresh s) (hP : 1 ≤ s.hp.patch_per_slide)
    (h : setup s stage total = some s2)
    (ht : s2.data_train = some t) (hv : s2.data_val = some v)
    (hw : s2.data_test = some w) :
    t.Disjoint v ∧ t.Disjoint w ∧ v.Disjoint w := by
  obtain ⟨t0, v0, w0, hrs, ht0, hv0, hw0⟩ :=
    setup_fresh_some s s2 stage total hf h
  obtain ⟨d12, d13, d23, -, -⟩ := rsplit_parts total _ _ _ 42 t0 v0 w0 hrs
  rw [ht0] at ht
  rw [hv0] at hv
  rw [hw0] at hw
  injection ht with ht
  injection hv with hv
  injection hw with hw
  subst ht hv hw
  exact ⟨expand_disjoint _ _ _ d12, expand_disjoint _ _ _ d13,
    expand_disjoint _ _ _ d23⟩

theorem C5_expanded_disjoint_witness :
    ([6, 18, 8, 12, 16, 7, 19, 9, 13, 17] : List Nat).Disjoint
        [10, 14, 0, 11, 15, 1] ∧
      ([6, 18, 8, 12, 16, 7, 19, 9, 13, 17] : List Nat).Disjoint [4, 2, 5, 3] ∧
      ([10, 14, 0, 11, 15, 1] : List Nat).Disjoint [4, 2, 5, 3] :=
  C5_expanded_disjoint (mkState hpEx) sEx none 10
    [6, 18, 8, 12, 16, 7, 19, 9, 13, 17] [10, 14, 0, 11, 15, 1] [4, 2, 5, 3]
    ⟨rfl, rfl, rfl⟩ (by decide) setup_hpEx rfl rfl rfl

/-- C6: calling `setup` a second time, with any stage argument, after a
completed first call from a fresh state (`total ≥ 1`,
`patch_per_slide ≥ 1`) returns the state unchanged: the guard sees the
populated partitions and returns immediately. -/
theorem C6_second_call_noop (s s2 : DMState) (stage stage2 : Option String)
    (total : Nat) (hf : fresh s) (htot : 1 ≤ total)
    (hP : 1 ≤ s.hp.patch_per_slide) (h : setup s stage total = some s2) :
    setup s2 stage2 total = some s2 := by
  obtain ⟨t0, v0, w0, hrs, ht0, hv0, hw0⟩ :=
    setup_fresh_some s s2 stage total hf h
  obtain ⟨-, hlt, hlv, hlw, hsum⟩ := rsplit_eq total _ _ _ 42 t0 v0 w0 hrs
  have hone : 1 ≤ t0.length ∨ 1 ≤ v0.length ∨ 1 ≤ w0.length := by omega
  have hcond : (populated s2.data_train || populated s2.data_val ||
      populated s2.data_test) = true := by
    rcases hone with h' | h' | h'
    · rw [ht0]
      simp [populated_expand s.hp.patch_per_slide t0 hP h']
    · rw [hv0]
      simp [populated_expand s.hp.patch_per_slide v0 hP h']
    · rw [hw0]
      simp [populated_expand s.hp.patch_per_slide w0 hP h']
  unfold setup
  rw [if_pos hcond]

theorem C6_second_call_noop_witness :
    setup sEx (some "test") 10 = some sEx :=
  C6_second_call_noop (mkState hpEx) sEx none (some "test") 10
    ⟨rfl, rfl, rfl⟩ (by decide) (by decide) setup_hpEx

/-- C7: whenever at least one of the three partition fields is populated
(non-`None` and non-empty), `setup` returns immediately with the whole state
unchanged — the guard of line 86 skips the split when any single partition is
populated, not only when all three are. -/
theorem C7_guard_any_populated (s : DMState) (stage : Option String)
    (total : Nat)
    (h : populated s.data_train = true ∨ populated s.data_val = true ∨
      populated s.data_test = true) :
    setup s stage total = some s := by
  have hcond : (populated s.data_train || populated s.data_val ||
      populated s.data_test) = true := by
    rcases h with h' | h' | h' <;> simp [h']
  unfold setup
  rw [if_pos hcond]

theorem C7_guard_any_populated_witness :
    (populated sPop.data_train = true ∨ populated sPop.data_val = true ∨
      populated sPop.data_test = true) ∧
      setup sPop (some "fit") 3 = some sPop :=
  ⟨Or.inl rfl, C7_guard_any_populated sPop (some "fit") 3 (Or.inl rfl)⟩

/-- C8: each dataloader constructor passes the configured `batch_size`,
`num_workers` and `pin_memory` through to `DataLoader` together with its own
partition as the dataset, and shuffle is enabled only for the train
dataloader — the val and test dataloaders are built with shuffle
disabled. -/
theorem C8_dataloader_args (s : DMState) :
    (train_dataloader s).indices = s.data_train ∧
    (train_dataloader s).batch_size = s.hp.batch_size ∧
    (train_dataloader s).num_workers = s.hp.num_workers ∧
    (train_dataloader s).pin_memory = s.hp.pin_memory ∧
    (train_dataloader s).shuffle = true ∧
    (val_dataloader s).indices = s.data_val ∧
    (val_dataloader s).batch_size = s.hp.batch_size ∧
    (val_dataloader s).num_workers = s.hp.num_workers ∧
    (val_dataloader s).pin_memory = s.hp.pin_memory ∧
    (val_dataloader s).shuffle = false ∧
    (test_dataloader s).indices = s.data_test ∧
    (test_dataloader s).batch_size = s.hp.batch_size ∧
    (test_dataloader s).num_workers = s.hp.num_workers ∧
    (test_dataloader s).pin_memory = s.hp.pin_memory ∧
    (test_dataloader s).shuffle = false :=
  ⟨rfl, rfl, rfl, rfl, rfl, rfl, rfl, rfl, rfl, rfl, rfl, rfl, rfl, rfl, rfl⟩

/-- C9: `state_dict` always returns the empty mapping, and `load_state_dict`
accepts any mapping, never fails, and leaves the whole state — hence the
three partitions and every subsequent dataloader — unchanged. -/
theorem C9_checkpoint_hooks (s : DMState) (m : List (String × Int)) :
    state_dict s = [] ∧ load_state_dict s m = s ∧
    train_dataloader (load_state_dict s m) = train_dataloader s ∧
    val_dataloader (load_state_dict s m) = val_dataloader s ∧
    test_dataloader (load_state_dict s m) = test_dataloader s :=
  ⟨rfl, rfl, rfl, rfl, rfl⟩

/-- C10: for `total_samples = 10` and split ratios `(0.5, 0.3, 0.2)`, `setup`
computes counts `(5, 3, 2)`, and with `patch_per_slide = 2` the expanded
train index list has length 10. -/
theorem C10_example_values :
    splitCounts hpEx 10 = (5, 3, 2) ∧
      (setup (mkState hpEx) none 10).map
        (fun s => (s.data_train.getD []).length) = some 10 := by
  refine ⟨splitCounts_hpEx, ?_⟩
  rw [setup_hpEx]
  rfl

end SlidesDM
